import Mathlib

/-!
Shallow embedding of `src/translate_srt.py` (repository `7a6163/subtitle-translator`).

The two components with decision logic are embedded faithfully:

* `combine_continuous_subtitles` (source lines 30-124): the merge decision
  engine.  The external spaCy annotator (`nlp = spacy.load(...)`, `nlp(text)`)
  is modelled as an explicit parameter `annot : String → List Token`; the code
  treats it as a deterministic, side-effect-free function.  Python string
  operations are re-implemented over `List Char` with structural recursion
  (`pyStrip` for `str.strip`, `pySplit` for `str.split`, `pyLower` for
  `str.lower`, `pyEndsWith`/`pyStartsWith` for `str.endswith`/`str.startswith`)
  so that closed instances evaluate by kernel reduction.  Python's `IndexError`
  (raised by `x[-1]`, `x[0]`, `list[1]` on too-short data) is modelled with
  `Except PyErr`.

* `translate_text` (source lines 126-195): the retry client.  The network is
  modelled as a response oracle `resp : Nat → Response` giving the outcome of
  the attempt-numbered `requests.post` call.  The function returns, besides the
  Python return value, the list of `time.sleep` durations and the number of
  remote calls, which are the observables the specification talks about.
-/

/-- One subtitle entry: the dict built by `read_srt` with keys
`index`, `timestamp`, `text` (source lines 22-26). -/
structure Cue where
  index : String
  timestamp : String
  text : String
deriving DecidableEq

/-- One token of the external linguistic annotator (spaCy): `text` is the
surface form, `pos` the coarse tag `token.pos_`, `tag` the fine tag
`token.tag_`, `dep` the dependency label `token.dep_`, and `headIdx` the
index `token.head.i` of its governing token. -/
structure Token where
  text : String
  pos : String
  tag : String
  dep : String
  headIdx : Nat
deriving DecidableEq

instance : Inhabited Token := ⟨⟨"", "", "", "", 0⟩⟩

/-- The Python exception that the merge engine can raise: `IndexError`, from
indexing an empty string (`text[-1]`, `text[0]`) or a too-short split result
(`split(' --> ')[1]`). -/
inductive PyErr where
  | indexError
deriving DecidableEq

instance {ε α : Type} [DecidableEq ε] [DecidableEq α] : DecidableEq (Except ε α) :=
  fun x y =>
    match x, y with
    | .ok a, .ok b =>
      if h : a = b then .isTrue (by rw [h]) else .isFalse (by simp [h])
    | .error e, .error f =>
      if h : e = f then .isTrue (by rw [h]) else .isFalse (by simp [h])
    | .ok _, .error _ => .isFalse (by simp)
    | .error _, .ok _ => .isFalse (by simp)

/-- Python `str.strip()` with no argument, restricted to ASCII whitespace
(real CPython also strips some further Unicode whitespace; the subtitle texts
the program handles are ASCII-spaced). -/
def pyStrip (s : String) : String :=
  String.mk (((s.data.dropWhile Char.isWhitespace).reverse.dropWhile
    Char.isWhitespace).reverse)

/-- Python `str.lower()`, restricted to ASCII case mapping. -/
def pyLower (s : String) : String :=
  String.mk (s.data.map Char.toLower)

/-- Python `str.endswith(suffix)`. -/
def pyEndsWith (s suffix : String) : Bool :=
  suffix.data.isSuffixOf s.data

/-- Python `str.startswith(p)`. -/
def pyStartsWith (s p : String) : Bool :=
  p.data.isPrefixOf s.data

/-- Helper for `pySplit`: splits `l` at each non-overlapping occurrence of
`sep`, scanning left to right.  The fuel argument is initialised to the
length of `l`; every recursive call consumes at least one list element, so
given a non-empty separator the fuel never runs out. -/
def pySplitAux (sep : List Char) : Nat → List Char → List (List Char)
  | _, [] => [[]]
  | 0, l => [l]
  | fuel + 1, c :: rest =>
    if sep.isPrefixOf (c :: rest) then
      [] :: pySplitAux sep fuel ((c :: rest).drop sep.length)
    else
      match pySplitAux sep fuel rest with
      | [] => [[c]]
      | h :: t => (c :: h) :: t

/-- Python `str.split(sep)` with a non-empty separator. -/
def pySplit (s sep : String) : List String :=
  (pySplitAux sep.data s.data.length s.data).map String.mk

/-- Condition 1 (source line 59): current sentence ends with preposition or
particle: `last_token.pos_ in ['ADP', 'PART']`. -/
def cond1 (lastTok : Token) : Bool :=
  lastTok.pos == "ADP" || lastTok.pos == "PART"

/-- Condition 2 (source line 62): `last_token.pos_ == 'DET'`. -/
def cond2 (lastTok : Token) : Bool :=
  lastTok.pos == "DET"

/-- Condition 3 (source line 65): coordinating conjunction other than
and/or/but. -/
def cond3 (lastTok : Token) : Bool :=
  lastTok.pos == "CCONJ" && !(["and", "or", "but"].contains (pyLower lastTok.text))

/-- Condition 4 (source lines 68-69): clause opener without a root in the
current annotation. -/
def cond4 (lastTok : Token) (curDoc : List Token) : Bool :=
  (lastTok.dep == "mark" || lastTok.dep == "prep")
    && !(curDoc.any fun t => t.dep == "ROOT")

/-- Condition 5 (source line 72): next text starts with a participle and the
current (stripped) text does not end with a period. -/
def cond5 (firstTok : Token) (curText : String) : Bool :=
  (firstTok.tag == "VBG" || firstTok.tag == "VBN") && !(pyEndsWith curText ".")

/-- Condition 6 (source line 75): no token of the current annotation is both
ROOT and VERB. -/
def cond6 (curDoc : List Token) : Bool :=
  !(curDoc.any fun t => t.dep == "ROOT" && t.pos == "VERB")

/-- Condition 7 (source line 78): current text does not end in `.!?,"` and
next text starts lower-case (`islower` restricted to ASCII). -/
def cond7 (lastCh firstCh : Char) : Bool :=
  !(['.', '!', '?', ',', '"'].contains lastCh) && firstCh.isLower

/-- Condition 8 (source lines 81-82): some object/attribute token of the next
annotation has `head.i` equal to the last position of the current annotation. -/
def cond8 (nextDoc : List Token) (curLen : Nat) : Bool :=
  nextDoc.any fun t =>
    (t.dep == "pobj" || t.dep == "dobj" || t.dep == "attr")
      && t.headIdx == curLen - 1

/-- Condition 9 (source lines 85-87): verb-final text with an auxiliary but no
object/attribute/preposition complement. -/
def cond9 (lastTok : Token) (curDoc : List Token) : Bool :=
  lastTok.pos == "VERB"
    && (curDoc.any fun t => t.dep == "aux")
    && !(curDoc.any fun t => t.dep == "dobj" || t.dep == "attr" || t.dep == "prep")

/-- `should_combine` (source lines 57-88): the OR of the nine trigger
sub-conditions. -/
def should_combine (lastTok firstTok : Token) (curDoc nextDoc : List Token)
    (curText : String) (lastCh firstCh : Char) : Bool :=
  cond1 lastTok || cond2 lastTok || cond3 lastTok || cond4 lastTok curDoc
    || cond5 firstTok curText || cond6 curDoc || cond7 lastCh firstCh
    || cond8 nextDoc curDoc.length || cond9 lastTok curDoc

/-- Veto A (source lines 93-94): next starts with and/or/but while the last
token ends with a period. -/
def vetoA (firstTok lastTok : Token) : Bool :=
  ["and", "or", "but"].contains (pyLower firstTok.text)
    && pyEndsWith lastTok.text "."

/-- Veto B (source line 97): next text starts upper-case and the current text
ends with a period. -/
def vetoB (firstCh : Char) (curText : String) : Bool :=
  firstCh.isUpper && pyEndsWith curText "."

/-- Veto C (source line 100): quoted-dialogue boundary. -/
def vetoC (curText nextText : String) : Bool :=
  pyEndsWith curText "\"" && pyStartsWith nextText "\""

/-- Veto D (source lines 103-105): two complete independent sentences. -/
def vetoD (curText : String) (curDoc nextDoc : List Token) : Bool :=
  pyEndsWith curText "."
    && (curDoc.any fun t => t.dep == "ROOT")
    && (nextDoc.any fun t => t.dep == "ROOT")

/-- `should_not_combine` (source lines 91-106): the OR of the four veto
sub-conditions. -/
def should_not_combine (lastTok firstTok : Token) (curDoc nextDoc : List Token)
    (curText nextText : String) (firstCh : Char) : Bool :=
  vetoA firstTok lastTok || vetoB firstCh curText || vetoC curText nextText
    || vetoD curText curDoc nextDoc

/-- The per-pair merge decision, source lines 40-108: strip both texts,
annotate both, and, when both annotations are non-empty
(`len(current_doc) > 0 and len(next_doc) > 0`), combine the nine trigger
conditions and the four vetoes.  When either annotation is empty the
condition block is skipped and `should_combine` stays `False`.  When an
annotation is non-empty although its stripped text is empty, evaluating the
eagerly-built condition lists indexes into the empty string
(`current_text[-1]` in condition 7, or `next_text[0]` in condition 7 / veto
B) and raises `IndexError`; that is kept as the `.error` branch. -/
def decideCombine (annot : String → List Token) (curRaw nextRaw : String) :
    Except PyErr Bool :=
  let curText := pyStrip curRaw
  let nextText := pyStrip nextRaw
  let curDoc := annot curText
  let nextDoc := annot nextText
  match curDoc.getLast?, nextDoc.head? with
  | some lastTok, some firstTok =>
    match curText.data.getLast?, nextText.data.head? with
    | some lastCh, some firstCh =>
      .ok (should_combine lastTok firstTok curDoc nextDoc curText lastCh firstCh
        && !(should_not_combine lastTok firstTok curDoc nextDoc curText nextText
          firstCh))
    | _, _ => .error .indexError
  | _, _ => .ok false

/-- The merged timestamp, source line 114:
`current_time.split(' --> ')[0] + ' --> ' + next_time.split(' --> ')[1]`.
Indexing `[0]` of a split never fails (a split result is non-empty); indexing
`[1]` raises `IndexError` when the absorbed cue's timestamp does not contain
the delimiter. -/
def mergeTs (curTime nextTime : String) : Except PyErr String :=
  match (pySplit nextTime " --> ").get? 1 with
  | some e => .ok (((pySplit curTime " --> ").headD "") ++ " --> " ++ e)
  | none => .error .indexError

/-- The cue a merge emits, source lines 110-114: the stripped texts joined by
one space, the merged timestamp, and the absorbing cue's (not yet renumbered)
index. -/
def mergedCue (c1 c2 : Cue) (ts : String) : Cue :=
  { index := c1.index, timestamp := ts
    text := pyStrip c1.text ++ " " ++ pyStrip c2.text }

/-- The cursor walk of `combine_continuous_subtitles`, source lines 35-118,
before the final renumbering: merge the head pair and continue after it when
the decision fires, otherwise emit the head unchanged and continue at the
second element. -/
def combineLoop (annot : String → List Token) : List Cue → Except PyErr (List Cue)
  | [] => .ok []
  | [c] => .ok [c]
  | c1 :: c2 :: rest => do
    let b ← decideCombine annot c1.text c2.text
    if b then do
      let ts ← mergeTs c1.timestamp c2.timestamp
      let out ← combineLoop annot rest
      pure (mergedCue c1 c2 ts :: out)
    else do
      let out ← combineLoop annot (c2 :: rest)
      pure (c1 :: out)

/-- The renumbering pass, source lines 121-122: `enumerate(combined_data, 1)`
with `item['index'] = str(idx)`. -/
def renumberFrom (k : Nat) : List Cue → List Cue
  | [] => []
  | c :: rest => { c with index := toString k } :: renumberFrom (k + 1) rest

/-- `combine_continuous_subtitles` (source lines 30-124): the cursor walk
followed by index renumbering from 1. -/
def combine_continuous_subtitles (annot : String → List Token)
    (srtData : List Cue) : Except PyErr (List Cue) :=
  (combineLoop annot srtData).map (renumberFrom 1)

/-- The number of merges the cursor walk performs, mirroring the recursion of
`combineLoop` (used to state the counting claim; it errors exactly where the
walk errors). -/
def mergeCount (annot : String → List Token) : List Cue → Except PyErr Nat
  | [] => .ok 0
  | [_] => .ok 0
  | c1 :: c2 :: rest => do
    let b ← decideCombine annot c1.text c2.text
    if b then do
      let _ ← mergeTs c1.timestamp c2.timestamp
      let m ← mergeCount annot rest
      pure (m + 1)
    else mergeCount annot (c2 :: rest)

/-- The outcome of one `requests.post` call (source lines 151-155), as the
retry loop distinguishes outcomes:
* `ok content`: status 200 with a well-formed body; `content` is
  `result['choices'][0]['message']['content']` (the loop returns its strip);
* `okMalformed`: status 200 whose body extraction raises (caught by the
  `except` at line 186);
* `rateLimit retryAfter`: status 429 with the optional `Retry-After` header;
* `otherStatus`: any other status code (source line 176);
* `raiseExn`: a transport-level exception from `requests.post` itself. -/
inductive Response where
  | ok (content : String)
  | okMalformed
  | rateLimit (retryAfter : Option String)
  | otherStatus
  | raiseExn
deriving DecidableEq

/-- Whether a response is the status-200 success the loop returns from. -/
def Response.isSuccess : Response → Bool
  | .ok _ => true
  | _ => false

/-- The natural number denoted by a non-empty all-digit character list. -/
def digitsToNat (l : List Char) : Nat :=
  l.foldl (fun n c => n * 10 + (c.toNat - '0'.toNat)) 0

/-- Parses a non-empty all-digit character list, `none` otherwise. -/
def parseNatDigits (l : List Char) : Option Nat :=
  if l ≠ [] ∧ l.all Char.isDigit then some (digitsToNat l) else none

/-- Python `int(s)` for an optionally signed decimal string literal
(`none` models the `ValueError` raise); surrounding whitespace is stripped
as CPython does (digit-group underscores are not modelled). -/
def pyInt (s : String) : Option Int :=
  match (pyStrip s).data with
  | '-' :: rest => (parseNatDigits rest).map (fun n => -(n : Int))
  | '+' :: rest => (parseNatDigits rest).map (fun n => (n : Int))
  | t => (parseNatDigits t).map (fun n => (n : Int))

/-- The single usable wait hint a response carries, if any, following source
lines 163-168: a 429 response whose `Retry-After` header is present, truthy
(non-empty), parses as an integer, and is non-negative (a negative value
makes `time.sleep` raise, which the `except` turns into the backoff path). -/
def Response.usableHint : Response → Option Int
  | .rateLimit (some s) =>
    if s = "" then none
    else
      match pyInt s with
      | some w => if 0 ≤ w then some w else none
      | none => none
  | _ => none

/-- The retry loop of `translate_text`, source lines 129-195.  `resp` is the
response oracle indexed by attempt number, `text` the input text,
`remaining` the number of loop iterations left (initially `max_retries`),
`a` the current attempt number, and `d` the current backoff delay.  The
result triple is the Python return value, the list of `time.sleep`
durations, and the number of remote calls issued.

The branches mirror the source: a 200 response returns the stripped content
(line 159); a 429 response on the last attempt returns the input text (line
175), otherwise it sleeps the `Retry-After` hint verbatim when the header is
truthy, numeric and non-negative, keeping the stored delay (lines 163-171),
and falls back to sleeping the stored delay and doubling it when the header
is absent or empty (lines 166-168) or when `int(...)` or `time.sleep`
raises and the `except` clause takes over (lines 186-192); any other status,
a malformed 200 body, or a transport exception likewise sleeps the stored
delay, doubles it and retries, or returns the input text on the last attempt
(lines 176-193).  The delay is a natural number: the source takes a float
whose CLI default is 1, and the claims only concern exact doubling. -/
def translateGo (resp : Nat → Response) (text : String) :
    Nat → Nat → Nat → String × List Int × Nat
  | 0, _, _ => (text, [], 0)
  | r + 1, a, d =>
    match resp a with
    | .ok content => (pyStrip content, [], 1)
    | .rateLimit retryAfter =>
      if r = 0 then (text, [], 1)
      else
        match retryAfter with
        | some s =>
          if s = "" then
            let (res, ws, n) := translateGo resp text r (a + 1) (2 * d)
            (res, (d : Int) :: ws, n + 1)
          else
            match pyInt s with
            | some w =>
              if 0 ≤ w then
                let (res, ws, n) := translateGo resp text r (a + 1) d
                (res, w :: ws, n + 1)
              else
                let (res, ws, n) := translateGo resp text r (a + 1) (2 * d)
                (res, (d : Int) :: ws, n + 1)
            | none =>
              let (res, ws, n) := translateGo resp text r (a + 1) (2 * d)
              (res, (d : Int) :: ws, n + 1)
        | none =>
          let (res, ws, n) := translateGo resp text r (a + 1) (2 * d)
          (res, (d : Int) :: ws, n + 1)
    | .okMalformed =>
      if r = 0 then (text, [], 1)
      else
        let (res, ws, n) := translateGo resp text r (a + 1) (2 * d)
        (res, (d : Int) :: ws, n + 1)
    | .otherStatus =>
      if r = 0 then (text, [], 1)
      else
        let (res, ws, n) := translateGo resp text r (a + 1) (2 * d)
        (res, (d : Int) :: ws, n + 1)
    | .raiseExn =>
      if r = 0 then (text, [], 1)
      else
        let (res, ws, n) := translateGo resp text r (a + 1) (2 * d)
        (res, (d : Int) :: ws, n + 1)

/-- `translate_text` (source lines 126-195).  The request-payload parameters
(`api_key`, `model`, `system_prompt`, `temperature`) only shape the HTTP
body and are absorbed into the response oracle `resp`; `max_retries` and
`initial_delay` are the keyword parameters of the source. -/
def translate_text (resp : Nat → Response) (text : String)
    (max_retries : Nat) (initial_delay : Nat) : String × List Int × Nat :=
  translateGo resp text max_retries 0 initial_delay

theorem exc_bind_ok {α β : Type} {ε : Type} (a : α) (f : α → Except ε β) :
    (Except.ok a : Except ε α) >>= f = f a := rfl

theorem exc_bind_err {α β : Type} {ε : Type} (e : ε) (f : α → Except ε β) :
    (Except.error e : Except ε α) >>= f = .error e := rfl

theorem exc_map_ok {α β : Type} {ε : Type} (a : α) (f : α → β) :
    (Except.ok a : Except ε α).map f = .ok (f a) := rfl

theorem exc_bind_eq_map {α β : Type} {ε : Type} (x : Except ε α) (f : α → β) :
    (x >>= fun a => (Except.ok (f a) : Except ε β)) = x.map f := by
  cases x <;> rfl

/-- The relation between one input group and one output cue of the cursor
walk: a group is a single cue emitted unchanged, or a pair for which the
decision fired, emitted as its merge. -/
inductive GroupOk (annot : String → List Token) : List Cue → Cue → Prop where
  | single (c : Cue) : GroupOk annot [c] c
  | pair (c1 c2 : Cue) (ts : String)
      (hd : decideCombine annot c1.text c2.text = .ok true)
      (hts : mergeTs c1.timestamp c2.timestamp = .ok ts) :
      GroupOk annot [c1, c2] (mergedCue c1 c2 ts)

theorem combineLoop_grouped (annot : String → List Token) :
    ∀ (l out : List Cue), combineLoop annot l = .ok out →
      ∃ gs : List (List Cue), gs.flatten = l ∧ List.Forall₂ (GroupOk annot) gs out
  | [], out, h => by
    simp only [combineLoop, Except.ok.injEq] at h
    exact ⟨[], by simp, h ▸ List.Forall₂.nil⟩
  | [c], out, h => by
    simp only [combineLoop, Except.ok.injEq] at h
    exact ⟨[[c]], by simp, h ▸ List.Forall₂.cons (GroupOk.single c) List.Forall₂.nil⟩
  | c1 :: c2 :: rest, out, h => by
    simp only [combineLoop] at h
    cases hd : decideCombine annot c1.text c2.text with
    | error e => rw [hd, exc_bind_err] at h; exact Except.noConfusion h
    | ok b =>
      rw [hd, exc_bind_ok] at h
      cases b with
      | false =>
        simp only [Bool.false_eq_true, if_false] at h
        cases hr : combineLoop annot (c2 :: rest) with
        | error e => rw [hr, exc_bind_err] at h; exact Except.noConfusion h
        | ok out' =>
          rw [hr, exc_bind_ok] at h
          simp only [pure, Except.pure, Except.ok.injEq] at h
          obtain ⟨gs, hj, hf⟩ := combineLoop_grouped annot (c2 :: rest) out' hr
          exact ⟨[c1] :: gs, by simp [hj],
            h ▸ List.Forall₂.cons (GroupOk.single c1) hf⟩
      | true =>
        simp only [if_true] at h
        cases hts : mergeTs c1.timestamp c2.timestamp with
        | error e => rw [hts, exc_bind_err] at h; exact Except.noConfusion h
        | ok ts =>
          rw [hts, exc_bind_ok] at h
          cases hr : combineLoop annot rest with
          | error e => rw [hr, exc_bind_err] at h; exact Except.noConfusion h
          | ok out' =>
            rw [hr, exc_bind_ok] at h
            simp only [pure, Except.pure, Except.ok.injEq] at h
            obtain ⟨gs, hj, hf⟩ := combineLoop_grouped annot rest out' hr
            exact ⟨[c1, c2] :: gs, by simp [hj],
              h ▸ List.Forall₂.cons (GroupOk.pair c1 c2 ts hd hts) hf⟩

theorem combineLoop_count (annot : String → List Token) :
    ∀ (l out : List Cue), combineLoop annot l = .ok out →
      ∃ m : Nat, mergeCount annot l = .ok m ∧ l.length = out.length + m
  | [], out, h => by
    simp only [combineLoop, Except.ok.injEq] at h
    exact ⟨0, rfl, by simp [← h]⟩
  | [c], out, h => by
    simp only [combineLoop, Except.ok.injEq] at h
    exact ⟨0, rfl, by simp [← h]⟩
  | c1 :: c2 :: rest, out, h => by
    simp only [combineLoop] at h
    cases hd : decideCombine annot c1.text c2.text with
    | error e => rw [hd, exc_bind_err] at h; exact Except.noConfusion h
    | ok b =>
      rw [hd, exc_bind_ok] at h
      cases b with
      | false =>
        simp only [Bool.false_eq_true, if_false] at h
        cases hr : combineLoop annot (c2 :: rest) with
        | error e => rw [hr, exc_bind_err] at h; exact Except.noConfusion h
        | ok out' =>
          rw [hr, exc_bind_ok] at h
          simp only [pure, Except.pure, Except.ok.injEq] at h
          obtain ⟨m, hm, hlen⟩ := combineLoop_count annot (c2 :: rest) out' hr
          refine ⟨m, ?_, ?_⟩
          · simp only [mergeCount, hd, exc_bind_ok, Bool.false_eq_true, if_false]
            exact hm
          · simp [← h, hlen]; omega
      | true =>
        simp only [if_true] at h
        cases hts : mergeTs c1.timestamp c2.timestamp with
        | error e => rw [hts, exc_bind_err] at h; exact Except.noConfusion h
        | ok ts =>
          rw [hts, exc_bind_ok] at h
          cases hr : combineLoop annot rest with
          | error e => rw [hr, exc_bind_err] at h; exact Except.noConfusion h
          | ok out' =>
            rw [hr, exc_bind_ok] at h
            simp only [pure, Except.pure, Except.ok.injEq] at h
            obtain ⟨m, hm, hlen⟩ := combineLoop_count annot rest out' hr
            refine ⟨m + 1, ?_, ?_⟩
            · simp only [mergeCount, hd, exc_bind_ok, if_true, hts, hm,
                exc_bind_err]
              rfl
            · simp [← h, hlen]; omega

theorem renumberFrom_length (k : Nat) :
    ∀ l : List Cue, (renumberFrom k l).length = l.length
  | [] => rfl
  | _ :: rest => by simp [renumberFrom, renumberFrom_length (k + 1) rest]

theorem renumberFrom_index (k : Nat) :
    ∀ (l : List Cue) (i : Nat) (h : i < (renumberFrom k l).length),
      ((renumberFrom k l).get ⟨i, h⟩).index = toString (k + i)
  | c :: rest, 0, _ => by simp [renumberFrom]
  | c :: rest, i + 1, h => by
    have h' : i < (renumberFrom (k + 1) rest).length := by
      simpa [renumberFrom] using h
    simp only [renumberFrom, List.get_cons_succ]
    rw [renumberFrom_index (k + 1) rest i h']
    congr 1
    omega

theorem renumberFrom_text (k : Nat) :
    ∀ l : List Cue, (renumberFrom k l).map Cue.text = l.map Cue.text
  | [] => rfl
  | c :: rest => by simp [renumberFrom, renumberFrom_text (k + 1) rest]

theorem renumberFrom_timestamp (k : Nat) :
    ∀ l : List Cue, (renumberFrom k l).map Cue.timestamp = l.map Cue.timestamp
  | [] => rfl
  | c :: rest => by simp [renumberFrom, renumberFrom_timestamp (k + 1) rest]

theorem translateGo_zero (resp : Nat → Response) (text : String) (a d : Nat) :
    translateGo resp text 0 a d = (text, [], 0) := rfl

theorem translateGo_ok (resp : Nat → Response) (text : String) (r a d : Nat)
    (c : String) (hA : resp a = .ok c) :
    translateGo resp text (r + 1) a d = (pyStrip c, [], 1) := by
  simp [translateGo, hA]

theorem translateGo_last_fail (resp : Nat → Response) (text : String) (a d : Nat)
    (hA : (resp a).isSuccess = false) :
    translateGo resp text 1 a d = (text, [], 1) := by
  cases hR : resp a with
  | ok c => simp [Response.isSuccess, hR] at hA
  | okMalformed => simp [translateGo, hR]
  | rateLimit ra => simp [translateGo, hR]
  | otherStatus => simp [translateGo, hR]
  | raiseExn => simp [translateGo, hR]

theorem translateGo_hint (resp : Nat → Response) (text : String) (r a d : Nat)
    (w : Int) (hH : (resp a).usableHint = some w) :
    translateGo resp text (r + 1 + 1) a d =
      ((translateGo resp text (r + 1) (a + 1) d).1,
        w :: (translateGo resp text (r + 1) (a + 1) d).2.1,
        (translateGo resp text (r + 1) (a + 1) d).2.2 + 1) := by
  cases hR : resp a with
  | rateLimit ra =>
    cases ra with
    | none => simp [Response.usableHint, hR] at hH
    | some s =>
      by_cases hs : s = ""
      · simp [Response.usableHint, hR, hs] at hH
      · cases hi : pyInt s with
        | none => simp [Response.usableHint, hR, hs, hi] at hH
        | some w' =>
          by_cases hw : 0 ≤ w'
          · have hww : w' = w := by
              simpa [Response.usableHint, hR, hs, hi, hw] using hH
            subst hww
            simp [translateGo, hR, hs, hi, hw]
          · simp [Response.usableHint, hR, hs, hi, hw] at hH
  | ok c => simp [Response.usableHint, hR] at hH
  | okMalformed => simp [Response.usableHint, hR] at hH
  | otherStatus => simp [Response.usableHint, hR] at hH
  | raiseExn => simp [Response.usableHint, hR] at hH

theorem translateGo_nohint (resp : Nat → Response) (text : String) (r a d : Nat)
    (hA : (resp a).isSuccess = false) (hH : (resp a).usableHint = none) :
    translateGo resp text (r + 1 + 1) a d =
      ((translateGo resp text (r + 1) (a + 1) (2 * d)).1,
        (d : Int) :: (translateGo resp text (r + 1) (a + 1) (2 * d)).2.1,
        (translateGo resp text (r + 1) (a + 1) (2 * d)).2.2 + 1) := by
  cases hR : resp a with
  | ok c => simp [Response.isSuccess, hR] at hA
  | okMalformed => simp [translateGo, hR]
  | otherStatus => simp [translateGo, hR]
  | raiseExn => simp [translateGo, hR]
  | rateLimit ra =>
    cases ra with
    | none => simp [translateGo, hR]
    | some s =>
      by_cases hs : s = ""
      · simp [translateGo, hR, hs]
      · cases hi : pyInt s with
        | none => simp [translateGo, hR, hs, hi]
        | some w' =>
          by_cases hw : 0 ≤ w'
          · simp [Response.usableHint, hR, hs, hi, hw] at hH
          · simp [translateGo, hR, hs, hi, hw]

theorem translateGo_retry (resp : Nat → Response) (text : String) (r a d : Nat)
    (hA : (resp a).isSuccess = false) (hr : r ≠ 0) :
    ∃ d' : Nat,
      (translateGo resp text (r + 1) a d).1 =
        (translateGo resp text r (a + 1) d').1 ∧
      (translateGo resp text (r + 1) a d).2.2 =
        (translateGo resp text r (a + 1) d').2.2 + 1 := by
  obtain ⟨r', rfl⟩ := Nat.exists_eq_succ_of_ne_zero hr
  cases hu : (resp a).usableHint with
  | some w =>
    exact ⟨d, by rw [translateGo_hint resp text r' a d w hu]; exact ⟨rfl, rfl⟩⟩
  | none =>
    exact ⟨2 * d,
      by rw [translateGo_nohint resp text r' a d hA hu]; exact ⟨rfl, rfl⟩⟩

theorem translateGo_calls_le (resp : Nat → Response) (text : String) :
    ∀ (r a d : Nat), (translateGo resp text r a d).2.2 ≤ r := by
  intro r
  induction r with
  | zero => intro a d; simp [translateGo_zero]
  | succ r ih =>
    intro a d
    cases hS : (resp a).isSuccess with
    | true =>
      cases hR : resp a <;> simp [Response.isSuccess, hR] at hS
      rw [translateGo_ok resp text r a d _ hR]
      simp
    | false =>
      cases hr : r with
      | zero => rw [translateGo_last_fail resp text a d hS]
      | succ r' =>
        subst hr
        obtain ⟨d', _, h2⟩ :=
          translateGo_retry resp text (r' + 1) a d hS (Nat.succ_ne_zero r')
        rw [h2]
        exact Nat.succ_le_succ (ih (a + 1) d')

theorem translateGo_all_fail (resp : Nat → Response) (text : String) :
    ∀ (r a d : Nat), (∀ k, k < r → (resp (a + k)).isSuccess = false) →
      (translateGo resp text r a d).1 = text ∧
        (translateGo resp text r a d).2.2 = r := by
  intro r
  induction r with
  | zero => intro a d _; simp [translateGo_zero]
  | succ r ih =>
    intro a d h
    have h0 : (resp a).isSuccess = false := by simpa using h 0 (Nat.succ_pos r)
    cases hr : r with
    | zero => rw [translateGo_last_fail resp text a d h0]; exact ⟨rfl, rfl⟩
    | succ r' =>
      obtain ⟨d', h1, h2⟩ :=
        translateGo_retry resp text (r' + 1) a d h0 (Nat.succ_ne_zero r')
      subst hr
      have hsh : ∀ k, k < r' + 1 → (resp (a + 1 + k)).isSuccess = false := by
        intro k hk
        have := h (k + 1) (by omega)
        simpa [Nat.add_assoc, Nat.add_comm 1 k] using this
      obtain ⟨ih1, ih2⟩ := ih (a + 1) d' hsh
      exact ⟨h1.trans ih1, by omega⟩

theorem translateGo_first_success (resp : Nat → Response) (text : String) :
    ∀ (k r a d : Nat) (c : String), k < r → resp (a + k) = .ok c →
      (∀ j, j < k → (resp (a + j)).isSuccess = false) →
      (translateGo resp text r a d).1 = pyStrip c := by
  intro k
  induction k with
  | zero =>
    intro r a d c hk hok _
    obtain ⟨r', rfl⟩ := Nat.exists_eq_succ_of_ne_zero (Nat.pos_iff_ne_zero.mp hk)
    rw [translateGo_ok resp text r' a d c (by simpa using hok)]
  | succ k ih =>
    intro r a d c hk hok hfail
    obtain ⟨r', rfl⟩ := Nat.exists_eq_succ_of_ne_zero
      (Nat.pos_iff_ne_zero.mp (Nat.lt_of_le_of_lt (Nat.zero_le _) hk))
    have h0 : (resp a).isSuccess = false := by simpa using hfail 0 (Nat.succ_pos k)
    have hr' : r' ≠ 0 := by omega
    obtain ⟨d', h1, _⟩ := translateGo_retry resp text r' a d h0 hr'
    rw [h1]
    refine ih r' (a + 1) d' c (by omega) ?_ ?_
    · simpa [Nat.add_assoc, Nat.add_comm 1 k] using hok
    · intro j hj
      have := hfail (j + 1) (by omega)
      simpa [Nat.add_assoc, Nat.add_comm 1 j] using this

theorem string_of_data_nil {s : String} (h : s.data = []) : s = "" := by
  cases s
  subst h
  rfl

theorem combineLoop_pair_eq (annot : String → List Token) (c1 c2 : Cue)
    (rest : List Cue) (b : Bool)
    (hd : decideCombine annot c1.text c2.text = .ok b) :
    combineLoop annot (c1 :: c2 :: rest) =
      if b then
        mergeTs c1.timestamp c2.timestamp >>= fun ts =>
          combineLoop annot rest >>= fun out =>
            pure (mergedCue c1 c2 ts :: out)
      else
        combineLoop annot (c2 :: rest) >>= fun out => pure (c1 :: out) := by
  simp only [combineLoop, hd, exc_bind_ok]

theorem combineLoop_merge (annot : String → List Token) (c1 c2 : Cue)
    (rest : List Cue) (ts : String)
    (hd : decideCombine annot c1.text c2.text = .ok true)
    (hts : mergeTs c1.timestamp c2.timestamp = .ok ts) :
    combineLoop annot (c1 :: c2 :: rest) =
      (combineLoop annot rest).map (fun out => mergedCue c1 c2 ts :: out) := by
  rw [combineLoop_pair_eq annot c1 c2 rest true hd]
  simp only [if_true, hts, exc_bind_ok]
  exact exc_bind_eq_map (combineLoop annot rest) _

theorem combineLoop_skip (annot : String → List Token) (c1 c2 : Cue)
    (rest : List Cue)
    (hd : decideCombine annot c1.text c2.text = .ok false) :
    combineLoop annot (c1 :: c2 :: rest) =
      (combineLoop annot (c2 :: rest)).map (fun out => c1 :: out) := by
  rw [combineLoop_pair_eq annot c1 c2 rest false hd]
  simp only [Bool.false_eq_true, if_false]
  exact exc_bind_eq_map (combineLoop annot (c2 :: rest)) _

theorem decideCombine_eq (annot : String → List Token) (curRaw nextRaw : String)
    (lastTok firstTok : Token) (lastCh firstCh : Char)
    (hT1 : (annot (pyStrip curRaw)).getLast? = some lastTok)
    (hT2 : (annot (pyStrip nextRaw)).head? = some firstTok)
    (hc : (pyStrip curRaw).data.getLast? = some lastCh)
    (hf : (pyStrip nextRaw).data.head? = some firstCh) :
    decideCombine annot curRaw nextRaw =
      .ok (should_combine lastTok firstTok (annot (pyStrip curRaw))
          (annot (pyStrip nextRaw)) (pyStrip curRaw) lastCh firstCh
        && !(should_not_combine lastTok firstTok (annot (pyStrip curRaw))
          (annot (pyStrip nextRaw)) (pyStrip curRaw) (pyStrip nextRaw) firstCh)) := by
  simp only [decideCombine, hT1, hT2, hc, hf]

theorem decideCombine_empty (annot : String → List Token) (a b : String)
    (h : annot (pyStrip a) = [] ∨ annot (pyStrip b) = []) :
    decideCombine annot a b = .ok false := by
  rcases h with h | h
  · cases hh : (annot (pyStrip b)).head? <;> simp [decideCombine, h, hh]
  · cases hl : (annot (pyStrip a)).getLast? <;> simp [decideCombine, h, hl]

theorem decideCombine_no_error (annot : String → List Token)
    (hA : annot "" = []) (a b : String) :
    ∃ r, decideCombine annot a b = .ok r := by
  cases hl : (annot (pyStrip a)).getLast? with
  | none =>
    cases hh : (annot (pyStrip b)).head? with
    | none => exact ⟨false, by simp [decideCombine, hl, hh]⟩
    | some t => exact ⟨false, by simp [decideCombine, hl, hh]⟩
  | some lastTok =>
    cases hh : (annot (pyStrip b)).head? with
    | none => exact ⟨false, by simp [decideCombine, hl, hh]⟩
    | some firstTok =>
      cases hc : (pyStrip a).data.getLast? with
      | none =>
        rw [List.getLast?_eq_none_iff] at hc
        rw [string_of_data_nil hc, hA] at hl
        exact absurd hl (by simp)
      | some lastCh =>
        cases hf : (pyStrip b).data.head? with
        | none =>
          rw [List.head?_eq_none_iff] at hf
          rw [string_of_data_nil hf, hA] at hh
          exact absurd hh (by simp)
        | some firstCh =>
          exact ⟨_, decideCombine_eq annot a b lastTok firstTok lastCh firstCh
            hl hh hc hf⟩

theorem mergeTs_no_error (t1 t2 : String)
    (h : 2 ≤ (pySplit t2 " --> ").length) :
    ∃ s, mergeTs t1 t2 = .ok s := by
  cases hg : (pySplit t2 " --> ").get? 1 with
  | none =>
    rw [List.get?_eq_none] at hg
    omega
  | some e =>
    exact ⟨(pySplit t1 " --> ").headD "" ++ " --> " ++ e,
      by simp only [mergeTs, hg]⟩

theorem combineLoop_no_error (annot : String → List Token) (hA : annot "" = []) :
    ∀ l : List Cue, (∀ c ∈ l, 2 ≤ (pySplit c.timestamp " --> ").length) →
      ∃ out, combineLoop annot l = .ok out
  | [], _ => ⟨[], rfl⟩
  | [c], _ => ⟨[c], rfl⟩
  | c1 :: c2 :: rest, hT => by
    obtain ⟨b, hb⟩ := decideCombine_no_error annot hA c1.text c2.text
    cases b with
    | false =>
      obtain ⟨out, hout⟩ := combineLoop_no_error annot hA (c2 :: rest)
        (fun c hc => hT c (List.mem_cons_of_mem c1 hc))
      exact ⟨c1 :: out, by rw [combineLoop_skip annot c1 c2 rest hb, hout]; rfl⟩
    | true =>
      obtain ⟨ts, hts⟩ := mergeTs_no_error c1.timestamp c2.timestamp
        (hT c2 (by simp))
      obtain ⟨out, hout⟩ := combineLoop_no_error annot hA rest
        (fun c hc =>
          hT c (List.mem_cons_of_mem c1 (List.mem_cons_of_mem c2 hc)))
      exact ⟨mergedCue c1 c2 ts :: out,
        by rw [combineLoop_merge annot c1 c2 rest ts hb hts, hout]; rfl⟩

/-- Modelled from the spec (for comparison with the source's `decideCombine`
only): step 3 of the merge algorithm in the spec reads "If either token
sequence is non-empty, evaluate a `shouldCombine` predicate ... Evaluate a
`shouldNotCombine` predicate ...".  This definition follows those words: the
guard accepts a pair as soon as one of the two annotations is non-empty, and
the condition block is then evaluated, which needs the last token of the
current annotation, the first token of the next annotation, and the boundary
characters; a missing one is an `IndexError`. -/
def decideCombineSpecGuard (annot : String → List Token)
    (curRaw nextRaw : String) : Except PyErr Bool :=
  let curText := pyStrip curRaw
  let nextText := pyStrip nextRaw
  let curDoc := annot curText
  let nextDoc := annot nextText
  if curDoc.isEmpty && nextDoc.isEmpty then .ok false
  else
    match curDoc.getLast?, nextDoc.head?, curText.data.getLast?,
        nextText.data.head? with
    | some lastTok, some firstTok, some lastCh, some firstCh =>
      .ok (should_combine lastTok firstTok curDoc nextDoc curText lastCh firstCh
        && !(should_not_combine lastTok firstTok curDoc nextDoc curText nextText
          firstCh))
    | _, _, _, _ => .error .indexError

theorem forall₂_mem_left {α β : Type} {R : α → β → Prop} :
    ∀ {l1 : List α} {l2 : List β}, List.Forall₂ R l1 l2 →
      ∀ a ∈ l1, ∃ b, R a b := by
  intro l1 l2 h
  induction h with
  | nil => intro a ha; simp at ha
  | cons hR hrest ih =>
    intro a ha
    rcases List.mem_cons.mp ha with rfl | ha'
    · exact ⟨_, hR⟩
    · exact ih a ha'

theorem groupOk_length {annot : String → List Token} {g : List Cue} {c : Cue}
    (h : GroupOk annot g c) : g.length = 1 ∨ g.length = 2 := by
  cases h with
  | single => exact Or.inl rfl
  | pair => exact Or.inr rfl

/-- A concrete annotator used for closed instances: it annotates the text
"on" as a single adposition token and "time" as a single root noun, and
returns no tokens for any other text. -/
def annotEx1 : String → List Token := fun s =>
  if s = "on" then [⟨"on", "ADP", "IN", "prep", 0⟩]
  else if s = "time" then [⟨"time", "NOUN", "NN", "ROOT", 0⟩]
  else []

/-- A concrete response oracle used for closed instances: three rate-limit
responses carrying numeric `Retry-After` hints, then a success. -/
def respEx1 : Nat → Response := fun a =>
  if a = 0 then .rateLimit (some "5")
  else if a = 1 then .rateLimit (some "7")
  else if a = 2 then .rateLimit (some "2")
  else .ok " Bonjour "

/-- C1: for an adjacent pair at the cursor whose two annotated token
sequences are both non-empty, the merge engine merges the pair exactly when
the nine-way `should_combine` disjunction holds and the four-way
`should_not_combine` disjunction fails; in particular a pair whose first cue
ends with an adposition token (condition 1) is merged unless a veto
sub-condition holds. -/
theorem claim1_merge_iff_conditions
    (annot : String → List Token) (c1 c2 : Cue) (rest : List Cue)
    (lastTok firstTok : Token) (lastCh firstCh : Char) (P : Bool)
    (hT1 : (annot (pyStrip c1.text)).getLast? = some lastTok)
    (hT2 : (annot (pyStrip c2.text)).head? = some firstTok)
    (hc : (pyStrip c1.text).data.getLast? = some lastCh)
    (hf : (pyStrip c2.text).data.head? = some firstCh)
    (hP : P = (should_combine lastTok firstTok (annot (pyStrip c1.text))
          (annot (pyStrip c2.text)) (pyStrip c1.text) lastCh firstCh
        && !(should_not_combine lastTok firstTok (annot (pyStrip c1.text))
          (annot (pyStrip c2.text)) (pyStrip c1.text) (pyStrip c2.text)
          firstCh))) :
    decideCombine annot c1.text c2.text = .ok P
    ∧ combineLoop annot (c1 :: c2 :: rest) =
        (if P then
          mergeTs c1.timestamp c2.timestamp >>= fun ts =>
            combineLoop annot rest >>= fun out =>
              pure (mergedCue c1 c2 ts :: out)
        else
          combineLoop annot (c2 :: rest) >>= fun out => pure (c1 :: out))
    ∧ (lastTok.pos = "ADP" →
        should_not_combine lastTok firstTok (annot (pyStrip c1.text))
          (annot (pyStrip c2.text)) (pyStrip c1.text) (pyStrip c2.text)
          firstCh = false →
        P = true) := by
  subst hP
  have hdec := decideCombine_eq annot c1.text c2.text lastTok firstTok
    lastCh firstCh hT1 hT2 hc hf
  refine ⟨hdec, combineLoop_pair_eq annot c1 c2 rest _ hdec, ?_⟩
  intro hADP hveto
  rw [hveto]
  simp [should_combine, cond1, hADP]

/-- Witness for C1: the pair `["on ", "time"]` under `annotEx1` has both
annotations non-empty, its last token is an adposition, no veto fires, and
the decision is a merge. -/
theorem claim1_witness :
    decideCombine annotEx1 "on " "time" = .ok true :=
  (claim1_merge_iff_conditions annotEx1 ⟨"1", "00:01 --> 00:02", "on "⟩
    ⟨"2", "00:03 --> 00:04", "time"⟩ [] ⟨"on", "ADP", "IN", "prep", 0⟩
    ⟨"time", "NOUN", "NN", "ROOT", 0⟩ 'n' 't' true (by decide) (by decide)
    (by decide) (by decide) (by decide)).1

/-- C2 fails as stated: on a merge the engine concatenates the *stripped*
texts, so a first cue with trailing whitespace refutes the claimed equality
`merged.text = current.text ++ " " ++ nextText` (with either the raw or the
stripped reading of `nextText`). -/
theorem claim2_counterexample :
    combine_continuous_subtitles annotEx1
      [⟨"1", "00:01 --> 00:02", "on "⟩, ⟨"2", "00:03 --> 00:04", "time"⟩]
      = .ok [⟨"1", "00:01 --> 00:04", "on time"⟩]
    ∧ "on time" ≠ "on " ++ " " ++ "time"
    ∧ "on time" ≠ "on " ++ " " ++ pyStrip "time" := by
  refine ⟨by decide, by decide, by decide⟩

/-- C2 (amended): the merge pass changes cue text only by merging.  When a
pair is merged the resulting text is the first cue's *stripped* text, one
space, and the next cue's *stripped* text; every cue not involved in a merge
keeps its text exactly, and no cue is reordered (the output is the in-order
image of a partition of the input into singletons and merged adjacent
pairs; the final renumbering touches only the index field). -/
theorem claim2_merge_text_effects (annot : String → List Token)
    (l out : List Cue) (h : combine_continuous_subtitles annot l = .ok out) :
    ∃ pre gs, combineLoop annot l = .ok pre
      ∧ out = renumberFrom 1 pre
      ∧ out.map Cue.text = pre.map Cue.text
      ∧ gs.flatten = l
      ∧ List.Forall₂ (fun g c =>
          (∃ c0, g = [c0] ∧ c.text = c0.text)
          ∨ ∃ d1 d2, g = [d1, d2]
              ∧ c.text = pyStrip d1.text ++ " " ++ pyStrip d2.text) gs pre := by
  rw [combine_continuous_subtitles] at h
  cases hpre : combineLoop annot l with
  | error e => rw [hpre] at h; exact Except.noConfusion h
  | ok pre =>
    rw [hpre, exc_map_ok, Except.ok.injEq] at h
    subst h
    obtain ⟨gs, hj, hf⟩ := combineLoop_grouped annot l pre hpre
    refine ⟨pre, gs, rfl, rfl, renumberFrom_text 1 pre, hj, ?_⟩
    refine List.Forall₂.imp ?_ hf
    intro g c hgc
    cases hgc with
    | single => exact Or.inl ⟨c, rfl, rfl⟩
    | pair d1 d2 ts hd hts => exact Or.inr ⟨d1, d2, rfl, rfl⟩

/-- Witness for C2 (amended): the merged example evaluated concretely. -/
theorem claim2_witness :
    ∃ (pre : List Cue) (gs : List (List Cue)),
      combineLoop annotEx1
        [⟨"1", "00:01 --> 00:02", "on "⟩, ⟨"2", "00:03 --> 00:04", "time"⟩]
        = .ok pre
      ∧ [(⟨"1", "00:01 --> 00:04", "on time"⟩ : Cue)] = renumberFrom 1 pre
      ∧ [(⟨"1", "00:01 --> 00:04", "on time"⟩ : Cue)].map Cue.text
          = pre.map Cue.text
      ∧ gs.flatten =
          [⟨"1", "00:01 --> 00:02", "on "⟩, ⟨"2", "00:03 --> 00:04", "time"⟩]
      ∧ List.Forall₂ (fun g c =>
          (∃ c0, g = [c0] ∧ c.text = c0.text)
          ∨ ∃ d1 d2, g = [d1, d2]
              ∧ c.text = pyStrip d1.text ++ " " ++ pyStrip d2.text) gs pre :=
  claim2_merge_text_effects annotEx1
    [⟨"1", "00:01 --> 00:02", "on "⟩, ⟨"2", "00:03 --> 00:04", "time"⟩]
    [⟨"1", "00:01 --> 00:04", "on time"⟩] (by decide)

/-- C3: when a merge is performed on a pair whose two timestamps are
well-formed (split by the delimiter into exactly a start and an end), the
emitted cue's timestamp is the absorbing cue's start, the delimiter, and the
absorbed cue's end. -/
theorem claim3_timestamp_union (annot : String → List Token) (c1 c2 : Cue)
    (rest : List Cue) (s1 e1 s2 e2 : String)
    (hd : decideCombine annot c1.text c2.text = .ok true)
    (h1 : pySplit c1.timestamp " --> " = [s1, e1])
    (h2 : pySplit c2.timestamp " --> " = [s2, e2]) :
    mergeTs c1.timestamp c2.timestamp = .ok (s1 ++ " --> " ++ e2)
    ∧ combineLoop annot (c1 :: c2 :: rest) =
        (combineLoop annot rest).map
          (fun out => mergedCue c1 c2 (s1 ++ " --> " ++ e2) :: out)
    ∧ (mergedCue c1 c2 (s1 ++ " --> " ++ e2)).timestamp
        = s1 ++ " --> " ++ e2 := by
  have hts : mergeTs c1.timestamp c2.timestamp = .ok (s1 ++ " --> " ++ e2) := by
    simp [mergeTs, h1, h2]
  exact ⟨hts, combineLoop_merge annot c1 c2 rest _ hd hts, rfl⟩

/-- Witness for C3: the merged example's timestamp spans from the first
cue's start to the second cue's end. -/
theorem claim3_witness :
    mergeTs "00:01 --> 00:02" "00:03 --> 00:04" = .ok "00:01 --> 00:04" :=
  (claim3_timestamp_union annotEx1 ⟨"1", "00:01 --> 00:02", "on "⟩
    ⟨"2", "00:03 --> 00:04", "time"⟩ [] "00:01" "00:02" "00:03" "00:04"
    (by decide) (by decide) (by decide)).1

/-- C4: whenever the merge pass returns, the output indices are the decimal
strings of 1, 2, ..., n in order, and the output length plus the number of
merges performed equals the input length. -/
theorem claim4_renumber_and_count (annot : String → List Token)
    (l out : List Cue) (h : combine_continuous_subtitles annot l = .ok out) :
    (∀ i (hi : i < out.length), (out.get ⟨i, hi⟩).index = toString (i + 1))
    ∧ ∃ m, mergeCount annot l = .ok m ∧ out.length + m = l.length := by
  rw [combine_continuous_subtitles] at h
  cases hpre : combineLoop annot l with
  | error e => rw [hpre] at h; exact Except.noConfusion h
  | ok pre =>
    rw [hpre, exc_map_ok, Except.ok.injEq] at h
    subst h
    obtain ⟨m, hm, hlen⟩ := combineLoop_count annot l pre hpre
    constructor
    · intro i hi
      rw [renumberFrom_index 1 pre i hi]
      congr 1
      omega
    · exact ⟨m, hm, by rw [renumberFrom_length]; omega⟩

/-- Witness for C4: the merged example has output index "1" and one merge
accounting for the length drop from 2 to 1. -/
theorem claim4_witness :
    ∃ m, mergeCount annotEx1
        [⟨"1", "00:01 --> 00:02", "on "⟩, ⟨"2", "00:03 --> 00:04", "time"⟩]
        = .ok m
      ∧ ([(⟨"1", "00:01 --> 00:04", "on time"⟩ : Cue)]).length + m
        = ([(⟨"1", "00:01 --> 00:02", "on "⟩ : Cue),
            ⟨"2", "00:03 --> 00:04", "time"⟩]).length :=
  (claim4_renumber_and_count annotEx1
    [⟨"1", "00:01 --> 00:02", "on "⟩, ⟨"2", "00:03 --> 00:04", "time"⟩]
    [⟨"1", "00:01 --> 00:04", "on time"⟩] (by decide)).2

/-- C5 fails as stated: the source guard is
`len(current_doc) > 0 and len(next_doc) > 0`, so for a pair with exactly one
empty annotation the condition block is *not* evaluated — the engine yields
`should_combine = False` without inspecting the conditions, while the
spec-worded variant (guard "either non-empty") would evaluate them and hits
the missing first token (`IndexError`). -/
theorem claim5_counterexample :
    annotEx1 (pyStrip "on") ≠ []
    ∧ annotEx1 (pyStrip "zzz") = []
    ∧ decideCombine annotEx1 "on" "zzz" = .ok false
    ∧ decideCombineSpecGuard annotEx1 "on" "zzz" = .error .indexError := by
  refine ⟨by decide, by decide, by decide, by decide⟩

/-- C5 (amended): the merge engine evaluates the trigger and veto conditions
only when both annotated token sequences are non-empty; when at least one of
them is empty (in particular when exactly one is), `should_combine` stays
false and the pair is emitted unmerged. -/
theorem claim5_one_empty_no_evaluation (annot : String → List Token)
    (c1 c2 : Cue) (rest : List Cue)
    (h : annot (pyStrip c1.text) = [] ∨ annot (pyStrip c2.text) = []) :
    decideCombine annot c1.text c2.text = .ok false
    ∧ combineLoop annot (c1 :: c2 :: rest) =
        (combineLoop annot (c2 :: rest)).map (fun out => c1 :: out) := by
  have hd := decideCombine_empty annot c1.text c2.text h
  exact ⟨hd, combineLoop_skip annot c1 c2 rest hd⟩

/-- Witness for C5 (amended): a pair whose second annotation is empty is
emitted unmerged. -/
theorem claim5_witness :
    decideCombine annotEx1 "on" "zzz" = .ok false :=
  (claim5_one_empty_no_evaluation annotEx1 ⟨"1", "t1", "on"⟩ ⟨"2", "t2", "zzz"⟩
    [] (Or.inr (by decide))).1

/-- C6 fails as stated: when a merge fires and the absorbed cue's timestamp
does not contain the delimiter, `next_time.split(' --> ')[1]` raises
`IndexError`, so the engine does have a fatal error path in exactly the case
the claim includes. -/
theorem claim6_counterexample :
    combine_continuous_subtitles annotEx1
      [⟨"1", "00:01 --> 00:02", "on "⟩, ⟨"2", "badstamp", "time"⟩]
      = .error .indexError := by decide

/-- C6 (amended): the merge engine completes without raising on every input
whose annotator returns no tokens for the empty text and whose cue
timestamps all contain the delimiter (split into at least two parts); the
delimiter-free-timestamp case had to be excluded, since it raises. -/
theorem claim6_no_error_with_wellformed_timestamps
    (annot : String → List Token) (l : List Cue)
    (hA : annot "" = [])
    (hT : ∀ c ∈ l, 2 ≤ (pySplit c.timestamp " --> ").length) :
    ∃ out, combine_continuous_subtitles annot l = .ok out := by
  obtain ⟨pre, hpre⟩ := combineLoop_no_error annot hA l hT
  exact ⟨renumberFrom 1 pre, by rw [combine_continuous_subtitles, hpre]; rfl⟩

/-- Witness for C6 (amended): the well-formed two-cue example completes. -/
theorem claim6_witness :
    ∃ out, combine_continuous_subtitles annotEx1
      [⟨"1", "00:01 --> 00:02", "on "⟩, ⟨"2", "00:03 --> 00:04", "time"⟩]
      = .ok out :=
  claim6_no_error_with_wellformed_timestamps annotEx1
    [⟨"1", "00:01 --> 00:02", "on "⟩, ⟨"2", "00:03 --> 00:04", "time"⟩]
    (by decide) (by decide)

/-- C7: the retry client is total and never raises past its boundary — for
every input text, retry bound, initial delay, and response oracle, the
returned string is the original text when no attempt within the budget
succeeds, and the stripped extracted content of the first success
otherwise. -/
theorem claim7_translate_total (resp : Nat → Response) (text : String)
    (maxR d : Nat) :
    ((∀ a, a < maxR → (resp a).isSuccess = false) →
      (translate_text resp text maxR d).1 = text)
    ∧ (∀ a c, a < maxR → resp a = .ok c →
        (∀ b, b < a → (resp b).isSuccess = false) →
        (translate_text resp text maxR d).1 = pyStrip c) := by
  constructor
  · intro h
    exact (translateGo_all_fail resp text maxR 0 d
      (fun k hk => by simpa using h k hk)).1
  · intro a c ha hok hfail
    exact translateGo_first_success resp text a maxR 0 d c ha
      (by simpa using hok) (fun j hj => by simpa using hfail j hj)

/-- Witness for C7: under three rate limits and then a success, the client
returns the stripped success payload. -/
theorem claim7_witness :
    (translate_text respEx1 "hello" 5 1).1 = pyStrip " Bonjour " :=
  (claim7_translate_total respEx1 "hello" 5 1).2 3 " Bonjour " (by decide)
    (by decide) (by decide)

/-- C8: the retry budget is a hard ceiling — at most `max_retries` remote
calls are ever issued, and when every response within the budget fails the
client returns the original text after exactly `max_retries` calls (for
`max_retries = 0` this is zero calls and the original text). -/
theorem claim8_retry_budget (resp : Nat → Response) (text : String)
    (maxR d : Nat) :
    (translate_text resp text maxR d).2.2 ≤ maxR
    ∧ ((∀ a, a < maxR → (resp a).isSuccess = false) →
        (translate_text resp text maxR d).1 = text
        ∧ (translate_text resp text maxR d).2.2 = maxR) := by
  constructor
  · exact translateGo_calls_le resp text maxR 0 d
  · intro h
    exact translateGo_all_fail resp text maxR 0 d
      (fun k hk => by simpa using h k hk)

/-- Witness for C8: with every response a rate limit and a budget of 2, the
client returns the original text after exactly 2 calls. -/
theorem claim8_witness :
    (translate_text (fun _ => Response.rateLimit none) "hello" 2 1).1 = "hello"
    ∧ (translate_text (fun _ => Response.rateLimit none) "hello" 2 1).2.2
        = 2 :=
  (claim8_retry_budget (fun _ => Response.rateLimit none) "hello" 2 1).2
    (by decide)

/-- C9: backoff numerics — a retry driven by a usable server hint sleeps the
hint verbatim and leaves the stored delay unchanged; every other retry
sleeps the stored delay and doubles it; and in the scenario of three
rate-limit responses with usable hints followed by a success, with budget at
least 4, the client returns the stripped success payload after exactly the
three hint-valued waits and 4 calls. -/
theorem claim9_backoff_semantics (resp : Nat → Response) (text : String) :
    (∀ r a d w, (resp a).usableHint = some w →
      translateGo resp text (r + 1 + 1) a d =
        ((translateGo resp text (r + 1) (a + 1) d).1,
          w :: (translateGo resp text (r + 1) (a + 1) d).2.1,
          (translateGo resp text (r + 1) (a + 1) d).2.2 + 1))
    ∧ (∀ r a d, (resp a).isSuccess = false → (resp a).usableHint = none →
      translateGo resp text (r + 1 + 1) a d =
        ((translateGo resp text (r + 1) (a + 1) (2 * d)).1,
          (d : Int) :: (translateGo resp text (r + 1) (a + 1) (2 * d)).2.1,
          (translateGo resp text (r + 1) (a + 1) (2 * d)).2.2 + 1))
    ∧ (∀ maxR d w0 w1 w2 c, 4 ≤ maxR →
        (resp 0).usableHint = some w0 → (resp 1).usableHint = some w1 →
        (resp 2).usableHint = some w2 → resp 3 = .ok c →
        translate_text resp text maxR d = (pyStrip c, [w0, w1, w2], 4)) := by
  refine ⟨fun r a d w hH => translateGo_hint resp text r a d w hH,
    fun r a d hA hH => translateGo_nohint resp text r a d hA hH, ?_⟩
  intro maxR d w0 w1 w2 c hmax h0 h1 h2 hok
  obtain ⟨k, rfl⟩ : ∃ k, maxR = k + 1 + 1 + 1 + 1 := ⟨maxR - 4, by omega⟩
  have s3 : translateGo resp text (k + 1) 3 d = (pyStrip c, [], 1) :=
    translateGo_ok resp text k 3 d c hok
  have s2 : translateGo resp text (k + 1 + 1) 2 d = (pyStrip c, [w2], 2) := by
    rw [translateGo_hint resp text k 2 d w2 h2]
    norm_num [s3]
  have s1 : translateGo resp text (k + 1 + 1 + 1) 1 d
      = (pyStrip c, [w1, w2], 3) := by
    rw [translateGo_hint resp text (k + 1) 1 d w1 h1]
    norm_num [s2]
  have s0 : translateGo resp text (k + 1 + 1 + 1 + 1) 0 d
      = (pyStrip c, [w0, w1, w2], 4) := by
    rw [translateGo_hint resp text (k + 1 + 1) 0 d w0 h0]
    norm_num [s1]
  exact s0

/-- Witness for C9: the concrete hinted scenario blocks for the three hints
5, 7, 2 and returns the stripped payload after 4 calls. -/
theorem claim9_witness :
    translate_text respEx1 "hello" 5 1 = ("Bonjour", [5, 7, 2], 4) := by
  have h := (claim9_backoff_semantics respEx1 "hello").2.2 5 1 5 7 2
    " Bonjour " (by norm_num) (by decide) (by decide) (by decide) (by decide)
  rw [h]
  decide

/-- C10: merging is strictly pairwise within one pass — whenever the merge
pass returns, the input partitions in order into groups of one or two
consecutive cues, each output cue before renumbering being its group's
single cue unchanged or the merge of its two cues; a merged cue is emitted
immediately and never absorbs a further cue, so no group has three or more
cues. -/
theorem claim10_pairwise_merging (annot : String → List Token)
    (l out : List Cue) (h : combine_continuous_subtitles annot l = .ok out) :
    ∃ pre gs, combineLoop annot l = .ok pre
      ∧ out = renumberFrom 1 pre
      ∧ gs.flatten = l
      ∧ List.Forall₂ (GroupOk annot) gs pre
      ∧ ∀ g ∈ gs, g.length = 1 ∨ g.length = 2 := by
  rw [combine_continuous_subtitles] at h
  cases hpre : combineLoop annot l with
  | error e => rw [hpre] at h; exact Except.noConfusion h
  | ok pre =>
    rw [hpre, exc_map_ok, Except.ok.injEq] at h
    subst h
    obtain ⟨gs, hj, hf⟩ := combineLoop_grouped annot l pre hpre
    refine ⟨pre, gs, rfl, rfl, hj, hf, ?_⟩
    intro g hg
    obtain ⟨c, hc⟩ := forall₂_mem_left hf g hg
    exact groupOk_length hc

/-- Witness for C10: the merged example partitions into one pair group. -/
theorem claim10_witness :
    ∃ (pre : List Cue) (gs : List (List Cue)),
      combineLoop annotEx1
        [⟨"1", "00:01 --> 00:02", "on "⟩, ⟨"2", "00:03 --> 00:04", "time"⟩]
        = .ok pre
      ∧ [(⟨"1", "00:01 --> 00:04", "on time"⟩ : Cue)] = renumberFrom 1 pre
      ∧ gs.flatten =
          [⟨"1", "00:01 --> 00:02", "on "⟩, ⟨"2", "00:03 --> 00:04", "time"⟩]
      ∧ List.Forall₂ (GroupOk annotEx1) gs pre
      ∧ ∀ g ∈ gs, g.length = 1 ∨ g.length = 2 :=
  claim10_pairwise_merging annotEx1
    [⟨"1", "00:01 --> 00:02", "on "⟩, ⟨"2", "00:03 --> 00:04", "time"⟩]
    [⟨"1", "00:01 --> 00:04", "on time"⟩] (by decide)
